import Mathlib

/-!
Shallow embedding of `src/app.py` (JSE Market Watch).

The embedded core is the scraper's table extraction and cleaning
(`JSEScraper.fetch_tables`, `JSEScraper._clean_table`, app.py lines 17-43)
and the analyzer (`MarketAnalyzer.get_top_movers` lines 49-64,
`MarketAnalyzer.combine_tables` lines 66-69).

Modelling conventions:
* a pandas DataFrame is a list of column labels plus a list of rows of cells;
* cell values are strings, rationals (for the finite decimals the quotes page
  carries) or missing (`NaN`);
* Python exceptions raised by the core (`KeyError` on a missing column or
  dictionary key) are modelled as `Except.error` values, matching the error
  taxonomy of the specification;
* `pd.to_numeric(..., errors='coerce')` is modelled by a decimal parser that
  accepts an optional sign and decimal-point notation and coerces every other
  string to missing (`none`).
-/

deriving instance DecidableEq for Except

namespace JSE

/-- A pandas cell value: a string, a finite number (modelled as a rational),
or a missing value (`NaN`). -/
inductive Cell where
  | str (s : String)
  | num (q : ℚ)
  | nan
deriving DecidableEq

/-- A pandas column label: the page tables carry string labels, but pandas
also allows non-string labels, modelled here by integer labels. -/
inductive ColName where
  | str (s : String)
  | int (z : ℤ)
deriving DecidableEq

/-- A pandas DataFrame: ordered column labels, and rows of cells aligned
positionally with the labels. -/
structure DataFrame where
  cols : List ColName
  rows : List (List Cell)
deriving DecidableEq

/-- Read the cell of row `r` in column position `i`; an out-of-range read is
missing (never hit on frames whose rows align with their columns). -/
def getCell (r : List Cell) (i : ℕ) : Cell :=
  r.getD i Cell.nan

/-! ### Numeric coercion (app.py lines 53-59) -/

/-- The natural number denoted by a list of digit characters, most significant
first. -/
def digitsToNat (cs : List Char) : ℕ :=
  cs.foldl (fun n c => 10 * n + (c.toNat - '0'.toNat)) 0

/-- Every character is a decimal digit. -/
def allDigits (cs : List Char) : Bool :=
  cs.all Char.isDigit

/-- Parse an unsigned decimal numeral, with an optional decimal point. -/
def parseBody (cs : List Char) : Option ℚ :=
  match cs.span (fun c => c != '.') with
  | (intPart, []) =>
      if allDigits intPart && !intPart.isEmpty then
        some (digitsToNat intPart : ℚ)
      else none
  | (intPart, _ :: fracPart) =>
      if allDigits intPart && allDigits fracPart
          && !(intPart.isEmpty && fracPart.isEmpty) then
        some ((digitsToNat intPart : ℚ)
          + (digitsToNat fracPart : ℚ) / (10 ^ fracPart.length : ℚ))
      else none

/-- Model of `pd.to_numeric(s, errors='coerce')` on one string: an optional
sign followed by a decimal numeral; every other string coerces to missing. -/
def parseDecimal (s : String) : Option ℚ :=
  match s.data with
  | '-' :: rest => (parseBody rest).map (fun q => -q)
  | '+' :: rest => parseBody rest
  | cs => parseBody cs

/-- Model of `str(x).replace('%', '')`: drop every percent sign. -/
def stripPercent (s : String) : String :=
  ⟨s.data.filter (fun c => c != '%')⟩

/-- Column dtype test `series.dtype == object` (app.py line 54): a column
holds Python objects exactly when some cell is a string. -/
def isObjectCol (cells : List Cell) : Bool :=
  cells.any fun c => match c with | Cell.str _ => true | _ => false

/-- Per-cell coercion on an object-dtype column (app.py lines 55-57):
`pd.to_numeric(str(x).replace('%', ''), errors='coerce')`. -/
def toNumericObj : Cell → Option ℚ
  | Cell.str s => parseDecimal (stripPercent s)
  | Cell.num q => some q
  | Cell.nan => none

/-- Whole-column coercion `pd.to_numeric(col, errors='coerce')` on a
non-object column (app.py line 59); such a column has no string cells. -/
def toNumericNum : Cell → Option ℚ
  | Cell.str s => parseDecimal s
  | Cell.num q => some q
  | Cell.nan => none

/-- The coercion `get_top_movers` applies to the change column of `df` located
at position `pctIdx` (the dtype branch of app.py lines 54-59). -/
def changeCoercion (df : DataFrame) (pctIdx : ℕ) : Cell → Option ℚ :=
  if isObjectCol (df.rows.map fun r => getCell r pctIdx) then toNumericObj
  else toNumericNum

/-! ### Cleaning (app.py lines 40-43) -/

/-- `pre` is an initial segment of `cs`. -/
def startsWithChars : List Char → List Char → Bool
  | [], _ => true
  | _ :: _, [] => false
  | p :: ps, c :: cs => p == c && startsWithChars ps cs

/-- The mask `df.columns.str.contains('^Unnamed', na=False)`: true exactly on
string labels that begin with `Unnamed`; non-string labels give `NaN`, which
`na=False` maps to false. -/
def isUnnamedCol : ColName → Bool
  | ColName.str s => startsWithChars "Unnamed".data s.data
  | ColName.int _ => false

/-- The kept-column mask `~df.columns.str.contains('^Unnamed', na=False)`. -/
def keepCol (c : ColName) : Bool :=
  !(isUnnamedCol c)

/-- Project a row onto the positions the mask keeps. -/
def maskRow : List Bool → List Cell → List Cell
  | [], _ => []
  | _ :: _, [] => []
  | b :: bs, c :: cs => if b then c :: maskRow bs cs else maskRow bs cs

/-- `JSEScraper._clean_table` (app.py lines 40-43):
`df.loc[:, ~df.columns.str.contains('^Unnamed', na=False)]`. -/
def clean_table (df : DataFrame) : DataFrame :=
  { cols := df.cols.filter keepCol,
    rows := df.rows.map (maskRow (df.cols.map keepCol)) }

/-! ### Fetching (app.py lines 17-38) -/

/-- The failure taxonomy of the fetcher: a transport-level failure (the body of
the `try` raising), or too few `<table>` elements on the page. -/
inductive FetchError where
  | networkFailure
  | structuralMismatch
deriving DecidableEq

/-- `JSEScraper.fetch_tables` (app.py lines 17-38), modelled from the point at
which the HTTP round trip and HTML parse either failed (`none`) or produced
the document-order list of parsed `<table>` elements.  Fewer than five tables
is the structural-mismatch failure; otherwise tables at positions 1, 3 and 5
(1-based) become the table set, with tables 3 and 5 cleaned. -/
def fetch_tables (response : Option (List DataFrame)) :
    Except FetchError (List (String × DataFrame)) :=
  match response with
  | none => Except.error FetchError.networkFailure
  | some tabs =>
    match tabs with
    | t0 :: _ :: t2 :: _ :: t4 :: _ =>
        Except.ok [("Table 1", t0), ("Table 3", clean_table t2),
                   ("Table 5", clean_table t4)]
    | _ => Except.error FetchError.structuralMismatch

/-! ### Analysis (app.py lines 45-69) -/

/-- The failure taxonomy of the analyzer: a `KeyError` on a missing DataFrame
column, or a `KeyError` on a missing table-set key. -/
inductive AnalysisError where
  | missingColumn (c : String)
  | missingKey (k : String)
deriving DecidableEq

/-- Position of the first occurrence of label `c` in a label list. -/
def colIdxAux (c : ColName) : List ColName → Option ℕ
  | [] => none
  | x :: xs => if x = c then some 0 else (colIdxAux c xs).map (fun i => i + 1)

/-- Position of the column labelled by the string `c` in `df`, as the column
access `df[c]` resolves it; `none` is the `KeyError` case. -/
def colIdx (df : DataFrame) (c : String) : Option ℕ :=
  colIdxAux (ColName.str c) df.cols

/-- A coercible ranked row: original row index (the pandas index, which
`nlargest`/`nsmallest` preserve), symbol cell, numeric change. -/
abbrev RankedEntry := ℕ × Cell × ℚ

/-- A row of a returned mover table: original row index, symbol cell, and the
coerced change value, `none` being `NaN` (rows whose change failed coercion
are kept by `nlargest`/`nsmallest` as trailing `NaN` padding). -/
abbrev Mover := ℕ × Cell × Option ℚ

/-- The total preorder `nlargest` sorts by (`keep='first'`): larger change
first, ties by original position. -/
def gainersRel (a b : RankedEntry) : Prop :=
  b.2.2 < a.2.2 ∨ (a.2.2 = b.2.2 ∧ a.1 ≤ b.1)

/-- The total preorder `nsmallest` sorts by (`keep='first'`): smaller change
first, ties by original position. -/
def declinersRel (a b : RankedEntry) : Prop :=
  a.2.2 < b.2.2 ∨ (a.2.2 = b.2.2 ∧ a.1 ≤ b.1)

instance : DecidableRel gainersRel := fun a b => by
  unfold gainersRel; infer_instance

instance : DecidableRel declinersRel := fun a b => by
  unfold declinersRel; infer_instance

instance : IsTotal RankedEntry gainersRel := by
  constructor
  intro a b
  rcases lt_trichotomy a.2.2 b.2.2 with h | h | h
  · exact Or.inr (Or.inl h)
  · rcases Nat.le_total a.1 b.1 with hi | hi
    · exact Or.inl (Or.inr ⟨h, hi⟩)
    · exact Or.inr (Or.inr ⟨h.symm, hi⟩)
  · exact Or.inl (Or.inl h)

instance : IsTrans RankedEntry gainersRel := by
  constructor
  intro a b c hab hbc
  rcases hab with h1 | ⟨e1, i1⟩
  · rcases hbc with h2 | ⟨e2, _⟩
    · exact Or.inl (h2.trans h1)
    · exact Or.inl (e2 ▸ h1)
  · rcases hbc with h2 | ⟨e2, i2⟩
    · exact Or.inl (e1 ▸ h2)
    · exact Or.inr ⟨e1.trans e2, i1.trans i2⟩

instance : IsTotal RankedEntry declinersRel := by
  constructor
  intro a b
  rcases lt_trichotomy a.2.2 b.2.2 with h | h | h
  · exact Or.inl (Or.inl h)
  · rcases Nat.le_total a.1 b.1 with hi | hi
    · exact Or.inl (Or.inr ⟨h, hi⟩)
    · exact Or.inr (Or.inr ⟨h.symm, hi⟩)
  · exact Or.inr (Or.inl h)

instance : IsTrans RankedEntry declinersRel := by
  constructor
  intro a b c hab hbc
  rcases hab with h1 | ⟨e1, i1⟩
  · rcases hbc with h2 | ⟨e2, _⟩
    · exact Or.inl (h1.trans h2)
    · exact Or.inl (e2 ▸ h1)
  · rcases hbc with h2 | ⟨e2, i2⟩
    · exact Or.inl (e1 ▸ h2)
    · exact Or.inr ⟨e1.trans e2, i1.trans i2⟩

/-- The rows that enter the numeric ranking: each row paired with its original
index, its change cell coerced; rows whose coercion is missing (`NaN`) are not
here — they are kept separately as padding (`nanEntries`). -/
def moverEntries (df : DataFrame) (symIdx pctIdx : ℕ) : List RankedEntry :=
  df.rows.enum.filterMap fun p =>
    (changeCoercion df pctIdx (getCell p.2 pctIdx)).map
      fun v => (p.1, getCell p.2 symIdx, v)

/-- The rows whose change value fails coercion (`NaN`), in original row order,
with their symbol cells; `nlargest`/`nsmallest` append them after the sorted
`NaN`-free rows when `n` exceeds the number of `NaN`-free rows. -/
def nanEntries (df : DataFrame) (symIdx pctIdx : ℕ) : List (ℕ × Cell) :=
  df.rows.enum.filterMap fun p =>
    match changeCoercion df pctIdx (getCell p.2 pctIdx) with
    | some _ => none
    | none => some (p.1, getCell p.2 symIdx)

/-- `nlargest n` / `nsmallest n` with `keep='first'`: the `NaN`-free rows
sorted by the given preorder, followed by the `NaN` rows in original order as
trailing padding, truncated to `n` — pandas `sort_values(...).head(n)` with
`na_position='last'`, equally the fast path
`concat([dropped.iloc[inds], nan_index]).iloc[:n]`. -/
def rankMovers (rel : RankedEntry → RankedEntry → Prop) [DecidableRel rel]
    (df : DataFrame) (symIdx pctIdx n : ℕ) : List Mover :=
  ((((moverEntries df symIdx pctIdx).insertionSort rel).map
      (fun e : RankedEntry => (e.1, e.2.1, some e.2.2)))
    ++ (nanEntries df symIdx pctIdx).map
      (fun e : ℕ × Cell => (e.1, e.2, (none : Option ℚ)))).take n

set_option synthInstance.maxSize 512 in
instance : DecidableEq (List Mover × List Mover) :=
  inferInstance

set_option synthInstance.maxSize 512 in
instance : DecidableEq (Except AnalysisError (List Mover × List Mover)) :=
  inferInstance

/-- `MarketAnalyzer.get_top_movers` (app.py lines 49-64).  The change column is
accessed first (line 54: a missing change column raises there), the symbol
column at the selection on line 61.  `nlargest n`/`nsmallest n` with
`keep='first'` sort the `NaN`-free rows by value (descending resp. ascending),
ties by original position, keep `NaN` rows as trailing padding, and take the
first `n`; the result keeps the original index and carries the symbol and
coerced-change columns. -/
def get_top_movers (df : DataFrame) (symbol_col pct_change_col : String)
    (n : ℕ) : Except AnalysisError (List Mover × List Mover) :=
  match colIdx df pct_change_col with
  | none => Except.error (AnalysisError.missingColumn pct_change_col)
  | some pctIdx =>
    match colIdx df symbol_col with
    | none => Except.error (AnalysisError.missingColumn symbol_col)
    | some symIdx =>
      Except.ok (rankMovers gainersRel df symIdx pctIdx n,
                 rankMovers declinersRel df symIdx pctIdx n)

/-- Dictionary lookup `tables[key]` on the fetched table set. -/
def lookupTable : List (String × DataFrame) → String → Option DataFrame
  | [], _ => none
  | p :: ps, k => if p.1 = k then some p.2 else lookupTable ps k

/-- Evaluate `[tables[key] for key in table_keys]` left to right; the first
missing key raises `KeyError`. -/
def lookupAll (ts : List (String × DataFrame)) :
    List String → Except AnalysisError (List DataFrame)
  | [] => Except.ok []
  | k :: ks =>
    match lookupTable ts k with
    | none => Except.error (AnalysisError.missingKey k)
    | some df => (lookupAll ts ks).map (fun dfs => df :: dfs)

/-- The column labels of a concatenation: labels in order of first appearance
(`pd.concat` with the default `sort=False`). -/
def unionCols (dfs : List DataFrame) : List ColName :=
  dfs.foldl (fun acc df => acc ++ df.cols.filter (fun c => decide (c ∉ acc))) []

/-- Re-index one source row onto the concatenation's columns: a label the
source lacks yields a missing value. -/
def reindexRow (srcCols outCols : List ColName) (r : List Cell) : List Cell :=
  outCols.map fun c =>
    match colIdxAux c srcCols with
    | some i => getCell r i
    | none => Cell.nan

/-- `pd.concat(dfs, ignore_index=True)`: union columns, rows of every source
in order, each re-indexed onto the union columns. -/
def concatDFs (dfs : List DataFrame) : DataFrame :=
  let cols := unionCols dfs
  { cols := cols,
    rows := (dfs.map fun df => df.rows.map (reindexRow df.cols cols)).flatten }

/-- `MarketAnalyzer.combine_tables` (app.py lines 66-69):
`pd.concat([tables[key] for key in table_keys], ignore_index=True)`. -/
def combine_tables (tables : List (String × DataFrame))
    (table_keys : List String) : Except AnalysisError DataFrame :=
  (lookupAll tables table_keys).map concatDFs

/-! ### Concrete datasets used by scenario theorems and witnesses -/

/-- The section-8 scenario dataset:
rows `[("ABC","+5.20%"), ("XYZ","-3.10%"), ("QRS","0.00%")]`. -/
def scenarioDF : DataFrame :=
  { cols := [ColName.str "Symbol", ColName.str "Change"],
    rows := [[Cell.str "ABC", Cell.str "+5.20%"],
             [Cell.str "XYZ", Cell.str "-3.10%"],
             [Cell.str "QRS", Cell.str "0.00%"]] }

/-- A one-row dataset whose change cell fails numeric coercion. -/
def naDF : DataFrame :=
  { cols := [ColName.str "Symbol", ColName.str "Change"],
    rows := [[Cell.str "AAA", Cell.str "n/a"]] }

/-- A two-row dataset with one coercible and one uncoercible change cell. -/
def mixedDF : DataFrame :=
  { cols := [ColName.str "Symbol", ColName.str "Change"],
    rows := [[Cell.str "AAA", Cell.str "+5.20%"],
             [Cell.str "BBB", Cell.str "n/a"]] }

/-- The empty dataset. -/
def emptyDF : DataFrame :=
  { cols := [], rows := [] }

/-- A dataset with a parser-artifact column, a column whose label contains
`Unnamed` away from the start, and an integer-labelled column. -/
def unnamedDF : DataFrame :=
  { cols := [ColName.str "Unnamed: 0", ColName.str "Not Unnamed", ColName.int 7],
    rows := [[Cell.nan, Cell.str "x", Cell.num 1]] }

/-! ### Helper lemmas -/

/-- Successful column resolution reduces `get_top_movers` to its ranking
branch. -/
theorem get_top_movers_eq {df : DataFrame} {sc cc : String} {n pctIdx symIdx : ℕ}
    (hp : colIdx df cc = some pctIdx) (hs : colIdx df sc = some symIdx) :
    get_top_movers df sc cc n =
      Except.ok (rankMovers gainersRel df symIdx pctIdx n,
                 rankMovers declinersRel df symIdx pctIdx n) := by
  unfold get_top_movers
  rw [hp, hs]

/-- Inversion: a successful `get_top_movers` run comes from resolved columns
and the two ranked mover lists. -/
theorem get_top_movers_ok {df : DataFrame} {sc cc : String} {n : ℕ}
    {g d : List Mover} (h : get_top_movers df sc cc n = Except.ok (g, d)) :
    ∃ pctIdx symIdx,
      colIdx df cc = some pctIdx ∧ colIdx df sc = some symIdx ∧
      g = rankMovers gainersRel df symIdx pctIdx n ∧
      d = rankMovers declinersRel df symIdx pctIdx n := by
  unfold get_top_movers at h
  cases hp : colIdx df cc with
  | none => rw [hp] at h; cases h
  | some pctIdx =>
    rw [hp] at h
    cases hs : colIdx df sc with
    | none => rw [hs] at h; cases h
    | some symIdx =>
      rw [hs] at h
      simp only [Except.ok.injEq, Prod.mk.injEq] at h
      exact ⟨pctIdx, symIdx, rfl, rfl, h.1.symm, h.2.symm⟩

/-! ### Claim theorems -/

unseal Rat.add Rat.mul Rat.inv Rat.sub Rat.ofScientific in
/-- C1. On the dataset with rows `[("ABC","+5.20%"), ("XYZ","-3.10%"),
("QRS","0.00%")]`, `get_top_movers` with symbol column `"Symbol"`, change
column `"Change"` and `n = 2` returns gainers `[("ABC", 5.20), ("QRS", 0.00)]`
and decliners `[("XYZ", -3.10), ("QRS", 0.00)]`, in exactly those orders (the
first component of each triple is the preserved pandas row index). -/
theorem spec_C1 :
    get_top_movers scenarioDF "Symbol" "Change" 2 =
      Except.ok
        ([(0, Cell.str "ABC", some (5.20 : ℚ)), (2, Cell.str "QRS", some (0.00 : ℚ))],
         [(1, Cell.str "XYZ", some (-3.10 : ℚ)), (2, Cell.str "QRS", some (0.00 : ℚ))]) ∧
    ∀ g d : List Mover,
      get_top_movers scenarioDF "Symbol" "Change" 2 = Except.ok (g, d) →
      g.map (fun e => (e.2.1, e.2.2)) =
          [(Cell.str "ABC", some (5.20 : ℚ)), (Cell.str "QRS", some (0.00 : ℚ))] ∧
      d.map (fun e => (e.2.1, e.2.2)) =
          [(Cell.str "XYZ", some (-3.10 : ℚ)), (Cell.str "QRS", some (0.00 : ℚ))] := by
  refine ⟨by decide, ?_⟩
  intro g d h
  have h0 : get_top_movers scenarioDF "Symbol" "Change" 2 =
      Except.ok
        ([(0, Cell.str "ABC", some (5.20 : ℚ)), (2, Cell.str "QRS", some (0.00 : ℚ))],
         [(1, Cell.str "XYZ", some (-3.10 : ℚ)), (2, Cell.str "QRS", some (0.00 : ℚ))]) := by
    decide
  rw [h0] at h
  simp only [Except.ok.injEq, Prod.mk.injEq] at h
  rw [← h.1, ← h.2]
  decide

unseal Rat.add Rat.mul Rat.inv Rat.sub Rat.ofScientific in
/-- C1 witness: the claim's theorem applied at its concrete run, discharging
the hypothesis of its second conjunct. -/
theorem spec_C1_witness :
    [(0, Cell.str "ABC", some (5.20 : ℚ)), (2, Cell.str "QRS", some (0.00 : ℚ))].map
        (fun e : Mover => (e.2.1, e.2.2)) =
      [(Cell.str "ABC", some (5.20 : ℚ)), (Cell.str "QRS", some (0.00 : ℚ))] ∧
    [(1, Cell.str "XYZ", some (-3.10 : ℚ)), (2, Cell.str "QRS", some (0.00 : ℚ))].map
        (fun e : Mover => (e.2.1, e.2.2)) =
      [(Cell.str "XYZ", some (-3.10 : ℚ)), (Cell.str "QRS", some (0.00 : ℚ))] :=
  spec_C1.2 _ _ (by decide)

/-- C4. A missing change column or symbol column makes `get_top_movers` return
the `missingColumn` error value (the embedded image of the `KeyError` the code
raises and the presentation layer catches), and a missing table-set key makes
`combine_tables` return a `missingKey` error value; all error outcomes of the
core operations are values of the `Except` results, so the caller can display
them and continue. -/
theorem spec_C4 :
    (∀ (df : DataFrame) (sc cc : String) (n : ℕ), colIdx df cc = none →
      get_top_movers df sc cc n = Except.error (AnalysisError.missingColumn cc)) ∧
    (∀ (df : DataFrame) (sc cc : String) (n pctIdx : ℕ),
      colIdx df cc = some pctIdx → colIdx df sc = none →
      get_top_movers df sc cc n = Except.error (AnalysisError.missingColumn sc)) ∧
    (∀ (ts : List (String × DataFrame)) (keys : List String) (k : String),
      k ∈ keys → lookupTable ts k = none →
      ∃ k', k' ∈ keys ∧ lookupTable ts k' = none ∧
        combine_tables ts keys = Except.error (AnalysisError.missingKey k')) := by
  refine ⟨?_, ?_, ?_⟩
  · intro df sc cc n hcc
    unfold get_top_movers
    rw [hcc]
  · intro df sc cc n pctIdx hcc hsc
    unfold get_top_movers
    rw [hcc, hsc]
  · intro ts keys k hk hnone
    induction keys with
    | nil => cases hk
    | cons k0 ks ih =>
      cases h0 : lookupTable ts k0 with
      | none =>
        refine ⟨k0, List.mem_cons_self _ _, h0, ?_⟩
        unfold combine_tables lookupAll
        rw [h0]
        rfl
      | some df0 =>
        have hk' : k ∈ ks := by
          cases List.mem_cons.mp hk with
          | inl he => rw [he] at hnone; rw [hnone] at h0; cases h0
          | inr hm => exact hm
        obtain ⟨k', hk'mem, hk'none, hcomb⟩ := ih hk'
        refine ⟨k', List.mem_cons_of_mem _ hk'mem, hk'none, ?_⟩
        have herr : lookupAll ts ks = Except.error (AnalysisError.missingKey k') := by
          unfold combine_tables at hcomb
          cases hla : lookupAll ts ks with
          | error e => rw [hla] at hcomb; cases hcomb; rfl
          | ok dfs => rw [hla] at hcomb; cases hcomb
        unfold combine_tables lookupAll
        rw [h0, herr]
        rfl

/-- C4 witness: the three error cases at concrete inputs. -/
theorem spec_C4_witness :
    get_top_movers emptyDF "Symbol" "Change" 5 =
      Except.error (AnalysisError.missingColumn "Change") ∧
    get_top_movers naDF "Missing" "Change" 5 =
      Except.error (AnalysisError.missingColumn "Missing") ∧
    ∃ k', k' ∈ ["Table 3"] ∧ lookupTable [] k' = none ∧
      combine_tables [] ["Table 3"] =
        Except.error (AnalysisError.missingKey k') :=
  ⟨spec_C4.1 emptyDF "Symbol" "Change" 5 rfl,
   spec_C4.2.1 naDF "Missing" "Change" 5 1 rfl rfl,
   spec_C4.2.2 [] ["Table 3"] "Table 3" (List.mem_cons_self _ _) rfl⟩

/-- C8. A fetched page on which fewer than 5 tables were found yields the
`structuralMismatch` failure, and every successfully returned table set
contains all three logical tables `"Table 1"`, `"Table 3"`, `"Table 5"` —
there is no partial table set. -/
theorem spec_C8 :
    (∀ tabs : List DataFrame, tabs.length < 5 →
      fetch_tables (some tabs) = Except.error FetchError.structuralMismatch) ∧
    (∀ (response : Option (List DataFrame)) (ts : List (String × DataFrame)),
      fetch_tables response = Except.ok ts →
      (lookupTable ts "Table 1").isSome ∧ (lookupTable ts "Table 3").isSome ∧
        (lookupTable ts "Table 5").isSome) := by
  constructor
  · intro tabs hlen
    rcases tabs with _ | ⟨t0, _ | ⟨t1, _ | ⟨t2, _ | ⟨t3, _ | ⟨t4, rest⟩⟩⟩⟩⟩
    · rfl
    · rfl
    · rfl
    · rfl
    · rfl
    · exfalso
      simp only [List.length_cons] at hlen
      omega
  · intro response ts h
    cases response with
    | none => cases h
    | some tabs =>
      rcases tabs with _ | ⟨t0, _ | ⟨t1, _ | ⟨t2, _ | ⟨t3, _ | ⟨t4, rest⟩⟩⟩⟩⟩
      · cases h
      · cases h
      · cases h
      · cases h
      · cases h
      · unfold fetch_tables at h
        cases h
        exact ⟨rfl, rfl, rfl⟩

/-- The table set a five-empty-table response produces. -/
def fiveTabsSet : List (String × DataFrame) :=
  [("Table 1", emptyDF), ("Table 3", clean_table emptyDF),
   ("Table 5", clean_table emptyDF)]

/-- C8 witness: a simulated four-table response fails structurally, and a
five-table response returns all three logical tables. -/
theorem spec_C8_witness :
    fetch_tables (some [emptyDF, emptyDF, emptyDF, emptyDF]) =
      Except.error FetchError.structuralMismatch ∧
    ((lookupTable fiveTabsSet "Table 1").isSome ∧
      (lookupTable fiveTabsSet "Table 3").isSome ∧
      (lookupTable fiveTabsSet "Table 5").isSome) :=
  ⟨spec_C8.1 [emptyDF, emptyDF, emptyDF, emptyDF] (by decide),
   spec_C8.2 (some [emptyDF, emptyDF, emptyDF, emptyDF, emptyDF]) fiveTabsSet rfl⟩

/-- A mask of trues keeps an initial segment whole. -/
theorem maskRow_allTrue (mask : List Bool) (r : List Cell)
    (h : ∀ b ∈ mask, b = true) : maskRow mask r = r.take mask.length := by
  induction mask generalizing r with
  | nil => rfl
  | cons b bs ih =>
    cases r with
    | nil => rfl
    | cons c cs =>
      have hb : b = true := h b (List.mem_cons_self _ _)
      subst hb
      rw [maskRow, if_pos rfl, List.length_cons, List.take_succ_cons,
        ih cs (fun x hx => h x (List.mem_cons_of_mem _ hx))]

/-- A masked row is no longer than the number of kept positions. -/
theorem maskRow_length_le (mask : List Bool) (r : List Cell) :
    (maskRow mask r).length ≤ mask.countP (fun b => b) := by
  induction mask generalizing r with
  | nil => simp [maskRow]
  | cons b bs ih =>
    cases r with
    | nil => simp [maskRow]
    | cons c cs =>
      cases b with
      | false =>
        rw [maskRow, if_neg (by simp), List.countP_cons,
          if_neg (show ¬((fun b => b) false = true) by simp), Nat.add_zero]
        exact ih cs
      | true =>
        rw [maskRow, if_pos rfl, List.length_cons, List.countP_cons,
          if_pos (show (fun b => b) true = true from rfl)]
        exact Nat.add_le_add_right (ih cs) 1

/-- C6. The unnamed-column cleaning rule is idempotent, and it preserves the
relative order of the columns it keeps (the cleaned labels form a sublist of
the original labels). -/
theorem spec_C6 (df : DataFrame) :
    clean_table (clean_table df) = clean_table df ∧
      (clean_table df).cols.Sublist df.cols := by
  constructor
  · show DataFrame.mk _ _ = DataFrame.mk _ _
    rw [DataFrame.mk.injEq]
    constructor
    · exact List.filter_eq_self.mpr fun a ha => List.of_mem_filter ha
    · show ((df.rows.map _).map _) = df.rows.map _
      rw [List.map_map]
      apply List.map_congr_left
      intro r _
      show maskRow ((df.cols.filter keepCol).map keepCol)
          (maskRow (df.cols.map keepCol) r) = maskRow (df.cols.map keepCol) r
      have hall : ∀ b ∈ (df.cols.filter keepCol).map keepCol, b = true := by
        intro b hb
        obtain ⟨x, hx, rfl⟩ := List.mem_map.mp hb
        exact List.of_mem_filter hx
      rw [maskRow_allTrue _ _ hall]
      apply List.take_of_length_le
      calc (maskRow (df.cols.map keepCol) r).length
          ≤ (df.cols.map keepCol).countP (fun b => b) := maskRow_length_le _ _
        _ = df.cols.countP keepCol := by
            rw [List.countP_map]; rfl
        _ = (df.cols.filter keepCol).length := by
            rw [List.countP_eq_length_filter]
        _ = ((df.cols.filter keepCol).map keepCol).length := (List.length_map _ _).symm
  · exact List.filter_sublist _

/-- C6 witness: the claim's theorem at a concrete dataset. -/
theorem spec_C6_witness :
    clean_table (clean_table naDF) = clean_table naDF ∧
      (clean_table naDF).cols.Sublist naDF.cols :=
  spec_C6 naDF

/-- `startsWithChars` decides the initial-segment relation. -/
theorem startsWithChars_iff (p s : List Char) :
    startsWithChars p s = true ↔ ∃ t, s = p ++ t := by
  induction p generalizing s with
  | nil =>
    simp [startsWithChars]
  | cons a ps ih =>
    cases s with
    | nil =>
      simp [startsWithChars]
    | cons c cs =>
      rw [startsWithChars]
      simp only [Bool.and_eq_true, beq_iff_eq, ih, List.cons_append,
        List.cons.injEq]
      constructor
      · rintro ⟨rfl, t, rfl⟩
        exact ⟨t, rfl, rfl⟩
      · rintro ⟨t, rfl, rfl⟩
        exact ⟨rfl, t, rfl⟩

/-- C10. Cleaning removes exactly the columns whose label is a string that
begins with `Unnamed`; a label containing `Unnamed` elsewhere, and a
non-string label, are retained. -/
theorem spec_C10 (df : DataFrame) (c : ColName) :
    c ∈ (clean_table df).cols ↔
      c ∈ df.cols ∧ ∀ s : String, c = ColName.str s →
        ¬ ∃ t : List Char, s.data = "Unnamed".data ++ t := by
  show c ∈ df.cols.filter keepCol ↔ _
  rw [List.mem_filter]
  apply and_congr_right
  intro _
  cases c with
  | str s =>
    simp only [keepCol, isUnnamedCol, Bool.not_eq_true', ColName.str.injEq,
      forall_eq']
    rw [← startsWithChars_iff]
    constructor
    · intro h hx
      rw [h] at hx
      cases hx
    · intro h
      cases hx : startsWithChars "Unnamed".data s.data with
      | false => rfl
      | true => exact absurd hx h
  | int z =>
    simp [keepCol, isUnnamedCol]

/-- C10 witness: the characterization at concrete labels — a parser-artifact
label is dropped, an interior occurrence and an integer label are kept. -/
theorem spec_C10_witness :
    (ColName.str "Unnamed: 0" ∈ (clean_table unnamedDF).cols ↔
      ColName.str "Unnamed: 0" ∈ unnamedDF.cols ∧
        ∀ s : String, ColName.str "Unnamed: 0" = ColName.str s →
          ¬ ∃ t : List Char, s.data = "Unnamed".data ++ t) ∧
    (ColName.str "Not Unnamed" ∈ (clean_table unnamedDF).cols ↔
      ColName.str "Not Unnamed" ∈ unnamedDF.cols ∧
        ∀ s : String, ColName.str "Not Unnamed" = ColName.str s →
          ¬ ∃ t : List Char, s.data = "Unnamed".data ++ t) ∧
    (ColName.int 7 ∈ (clean_table unnamedDF).cols ↔
      ColName.int 7 ∈ unnamedDF.cols ∧
        ∀ s : String, ColName.int 7 = ColName.str s →
          ¬ ∃ t : List Char, s.data = "Unnamed".data ++ t) :=
  ⟨spec_C10 unnamedDF (ColName.str "Unnamed: 0"),
   spec_C10 unnamedDF (ColName.str "Not Unnamed"),
   spec_C10 unnamedDF (ColName.int 7)⟩

/-- Two complementary `filterMap`s split a list's length. -/
theorem filterMap_split_length {α β γ : Type} (f : α → Option β)
    (g : α → Option γ) (h : ∀ a, f a = none ↔ g a ≠ none) (l : List α) :
    (l.filterMap f).length + (l.filterMap g).length = l.length := by
  induction l with
  | nil => rfl
  | cons a t ih =>
    rw [List.filterMap_cons, List.filterMap_cons]
    cases hf : f a with
    | some b =>
      cases hg : g a with
      | some c =>
        have h1 : f a = none := (h a).mpr (by rw [hg]; simp)
        rw [hf] at h1
        cases h1
      | none =>
        simp only [List.length_cons]
        omega
    | none =>
      cases hg : g a with
      | some c =>
        simp only [List.length_cons]
        omega
      | none => exact absurd hg ((h a).mp hf)

/-- The coercible entries and the `NaN` entries together account for every
row of the frame. -/
theorem entries_length_add (df : DataFrame) (symIdx pctIdx : ℕ) :
    (moverEntries df symIdx pctIdx).length
      + (nanEntries df symIdx pctIdx).length = df.rows.length := by
  unfold moverEntries nanEntries
  rw [show df.rows.length = df.rows.enum.length from List.enum_length.symm]
  apply filterMap_split_length
  intro p
  cases hc : changeCoercion df pctIdx (getCell p.2 pctIdx) with
  | some v => simp [hc]
  | none => simp [hc]

/-- Every ranked mover list has length `min n (row count)`: the sorted
coercible entries plus the `NaN` padding, truncated to `n`. -/
theorem length_rankMovers (rel : RankedEntry → RankedEntry → Prop)
    [DecidableRel rel] (df : DataFrame) (symIdx pctIdx n : ℕ) :
    (rankMovers rel df symIdx pctIdx n).length = min n df.rows.length := by
  unfold rankMovers
  rw [List.length_take, List.length_append, List.length_map, List.length_map,
    List.length_insertionSort, entries_length_add]

/-- C2.  For a dataset containing both columns and any `n`: gainers and
decliners each have length exactly `n` whenever the dataset has at least `n`
rows, and when `n` exceeds the row count the run still succeeds and returns
all rows ranked (rows with uncoercible change values included, as trailing
`NaN` padding). -/
theorem spec_C2 (df : DataFrame) (sc cc : String) (n pctIdx symIdx : ℕ)
    (hp : colIdx df cc = some pctIdx) (hs : colIdx df sc = some symIdx) :
    ∃ g d : List Mover,
      get_top_movers df sc cc n = Except.ok (g, d) ∧
      (n ≤ df.rows.length → g.length = n ∧ d.length = n) ∧
      (df.rows.length < n →
        g.length = df.rows.length ∧ d.length = df.rows.length) := by
  refine ⟨_, _, get_top_movers_eq hp hs, ?_, ?_⟩
  · intro hn
    constructor
    · rw [length_rankMovers]; omega
    · rw [length_rankMovers]; omega
  · intro hn
    constructor
    · rw [length_rankMovers]; omega
    · rw [length_rankMovers]; omega

/-- C2 witness: at the one-row dataset whose only change value fails
coercion, `n = 1` still yields length-1 gainers and decliners (the `NaN`
row is returned as padding). -/
theorem spec_C2_witness :
    ∃ g d : List Mover,
      get_top_movers naDF "Symbol" "Change" 1 = Except.ok (g, d) ∧
      (1 ≤ naDF.rows.length → g.length = 1 ∧ d.length = 1) ∧
      (naDF.rows.length < 1 →
        g.length = naDF.rows.length ∧ d.length = naDF.rows.length) :=
  spec_C2 naDF "Symbol" "Change" 1 1 0 rfl rfl

/-- Truncation within the first block of an append stays in that block. -/
theorem take_append_of_le {α : Type} {l₁ l₂ : List α} {n : ℕ}
    (h : n ≤ l₁.length) : (l₁ ++ l₂).take n = l₁.take n := by
  rw [List.take_append_eq_append_take, Nat.sub_eq_zero_of_le h, List.take_zero,
    List.append_nil]

/-- A returned mover is either a sorted coercible entry or a `NaN` padding
row. -/
theorem mem_rankMovers {rel : RankedEntry → RankedEntry → Prop}
    [DecidableRel rel] {df : DataFrame} {symIdx pctIdx n : ℕ} {e : Mover}
    (h : e ∈ rankMovers rel df symIdx pctIdx n) :
    (∃ a ∈ moverEntries df symIdx pctIdx, e = (a.1, a.2.1, some a.2.2)) ∨
    (∃ b ∈ nanEntries df symIdx pctIdx, e = (b.1, b.2, none)) := by
  unfold rankMovers at h
  rcases List.mem_append.mp (List.mem_of_mem_take h) with h2 | h2
  · obtain ⟨a, ha, rfl⟩ := List.mem_map.mp h2
    exact Or.inl ⟨a, (List.perm_insertionSort rel _).mem_iff.mp ha, rfl⟩
  · obtain ⟨b, hb, rfl⟩ := List.mem_map.mp h2
    exact Or.inr ⟨b, hb, rfl⟩

/-- When `n` stays within the coercible count, every returned mover is a
sorted coercible entry — the padding is cut off. -/
theorem mem_rankMovers_of_le {rel : RankedEntry → RankedEntry → Prop}
    [DecidableRel rel] {df : DataFrame} {symIdx pctIdx n : ℕ} {e : Mover}
    (hn : n ≤ (moverEntries df symIdx pctIdx).length)
    (h : e ∈ rankMovers rel df symIdx pctIdx n) :
    ∃ a ∈ moverEntries df symIdx pctIdx, e = (a.1, a.2.1, some a.2.2) := by
  unfold rankMovers at h
  have hlen : n ≤ (((moverEntries df symIdx pctIdx).insertionSort rel).map
      (fun a => (a.1, a.2.1, some a.2.2))).length := by
    rw [List.length_map, List.length_insertionSort]
    exact hn
  rw [take_append_of_le hlen] at h
  obtain ⟨a, ha, rfl⟩ := List.mem_map.mp (List.mem_of_mem_take h)
  exact ⟨a, (List.perm_insertionSort rel _).mem_iff.mp ha, rfl⟩

/-- A coercible ranked entry comes from a row of the frame: its index
addresses a row whose change cell coerces to the entry's value and whose
symbol cell is the entry's symbol. -/
theorem mem_moverEntries {df : DataFrame} {symIdx pctIdx : ℕ}
    {e : RankedEntry} (h : e ∈ moverEntries df symIdx pctIdx) :
    ∃ r, df.rows[e.1]? = some r ∧
      changeCoercion df pctIdx (getCell r pctIdx) = some e.2.2 ∧
      getCell r symIdx = e.2.1 := by
  unfold moverEntries at h
  rw [List.mem_filterMap] at h
  obtain ⟨p, hp, he⟩ := h
  rw [Option.map_eq_some'] at he
  obtain ⟨v, hv, rfl⟩ := he
  exact ⟨p.2, List.mem_enum_iff_getElem?.mp hp, hv, rfl⟩

unseal Rat.add Rat.mul Rat.inv Rat.sub Rat.ofScientific in
/-- C3 counterexample: the claimed exclusion is false as stated.  On the
mixed dataset with `n = 5`, the `"n/a"` row (index 1) is returned in both the
gainers and the decliners — as a trailing `NaN` padding row — because `n`
exceeds the single coercible row. -/
theorem spec_C3_cex :
    ∃ g d : List Mover,
      get_top_movers mixedDF "Symbol" "Change" 5 = Except.ok (g, d) ∧
      mixedDF.rows[1]? = some [Cell.str "BBB", Cell.str "n/a"] ∧
      changeCoercion mixedDF 1 (getCell [Cell.str "BBB", Cell.str "n/a"] 1)
        = none ∧
      (∃ e ∈ g, e.1 = 1) ∧ (∃ e ∈ d, e.1 = 1) := by
  refine ⟨[(0, Cell.str "AAA", some (5.20 : ℚ)), (1, Cell.str "BBB", none)],
          [(0, Cell.str "AAA", some (5.20 : ℚ)), (1, Cell.str "BBB", none)],
          by decide, by decide, by decide, ?_, ?_⟩
  · exact ⟨(1, Cell.str "BBB", none), by decide, rfl⟩
  · exact ⟨(1, Cell.str "BBB", none), by decide, rfl⟩

/-- C3 (amended).  A row whose change cell fails numeric coercion does not
make `get_top_movers` fail; it never appears with a numeric change value in
either sequence — any appearance is as an undefined (`NaN`) padding row — and
whenever `n` is at most the number of coercible rows it is excluded from both
sequences entirely. -/
theorem spec_C3 (df : DataFrame) (sc cc : String) (n pctIdx symIdx i : ℕ)
    (r : List Cell) (hp : colIdx df cc = some pctIdx)
    (hs : colIdx df sc = some symIdx) (hr : df.rows[i]? = some r)
    (hfail : changeCoercion df pctIdx (getCell r pctIdx) = none) :
    ∃ g d : List Mover,
      get_top_movers df sc cc n = Except.ok (g, d) ∧
      (∀ e ∈ g, e.1 = i → e.2.2 = none) ∧
      (∀ e ∈ d, e.1 = i → e.2.2 = none) ∧
      (n ≤ (moverEntries df symIdx pctIdx).length →
        (∀ e ∈ g, e.1 ≠ i) ∧ (∀ e ∈ d, e.1 ≠ i)) := by
  have hnotc : ∀ a ∈ moverEntries df symIdx pctIdx, a.1 ≠ i := by
    intro a ha hai
    obtain ⟨r', hr', hc, _⟩ := mem_moverEntries ha
    rw [hai, hr] at hr'
    injection hr' with hrr
    rw [← hrr, hfail] at hc
    cases hc
  refine ⟨_, _, get_top_movers_eq hp hs, ?_, ?_, ?_⟩
  · intro e he hei
    rcases mem_rankMovers he with ⟨a, ha, rfl⟩ | ⟨b, hb, rfl⟩
    · exact absurd hei (hnotc a ha)
    · rfl
  · intro e he hei
    rcases mem_rankMovers he with ⟨a, ha, rfl⟩ | ⟨b, hb, rfl⟩
    · exact absurd hei (hnotc a ha)
    · rfl
  · intro hn
    refine ⟨?_, ?_⟩ <;>
    · intro e he hei
      obtain ⟨a, ha, rfl⟩ := mem_rankMovers_of_le hn he
      exact hnotc a ha hei

/-- C3 witness: on the mixed dataset with `n = 1` (within the coercible
count), row 1 (change `"n/a"`) never carries a numeric value and is excluded
from both rankings, and the run succeeds. -/
theorem spec_C3_witness :
    ∃ g d : List Mover,
      get_top_movers mixedDF "Symbol" "Change" 1 = Except.ok (g, d) ∧
      (∀ e ∈ g, e.1 = 1 → e.2.2 = none) ∧
      (∀ e ∈ d, e.1 = 1 → e.2.2 = none) ∧
      (1 ≤ (moverEntries mixedDF 0 1).length →
        (∀ e ∈ g, e.1 ≠ 1) ∧ (∀ e ∈ d, e.1 ≠ 1)) :=
  spec_C3 mixedDF "Symbol" "Change" 1 1 0 1 [Cell.str "BBB", Cell.str "n/a"]
    rfl rfl rfl (by decide)

/-- Enumerated rows carry strictly increasing indices. -/
theorem enum_fst_pairwise {α : Type} (l : List α) :
    l.enum.Pairwise (fun a b => a.1 < b.1) := by
  rw [List.pairwise_iff_getElem]
  intro i j hi hj hij
  rw [List.getElem_enum, List.getElem_enum]
  exact hij

/-- Ranked entries carry strictly increasing original indices. -/
theorem moverEntries_fst_pairwise (df : DataFrame) (symIdx pctIdx : ℕ) :
    (moverEntries df symIdx pctIdx).Pairwise (fun a b => a.1 < b.1) := by
  unfold moverEntries
  refine List.Pairwise.filterMap _ ?_ (enum_fst_pairwise df.rows)
  intro a a' hlt b hb b' hb'
  rw [Option.mem_def, Option.map_eq_some'] at hb hb'
  obtain ⟨v, _, rfl⟩ := hb
  obtain ⟨v', _, rfl⟩ := hb'
  exact hlt

/-- `NaN` padding rows carry strictly increasing original indices. -/
theorem nanEntries_fst_pairwise (df : DataFrame) (symIdx pctIdx : ℕ) :
    (nanEntries df symIdx pctIdx).Pairwise (fun a b => a.1 < b.1) := by
  unfold nanEntries
  refine List.Pairwise.filterMap _ ?_ (enum_fst_pairwise df.rows)
  intro a a' hlt b hb b' hb'
  rw [Option.mem_def] at hb hb'
  split at hb
  · cases hb
  · split at hb'
    · cases hb'
    · injection hb with h1
      injection hb' with h2
      rw [← h1, ← h2]
      exact hlt

/-- Sorting entries with distinct indices yields a pairwise relation that
also separates the indices. -/
theorem insertionSort_pairwise_strict (rel : RankedEntry → RankedEntry → Prop)
    [DecidableRel rel] [IsTotal RankedEntry rel] [IsTrans RankedEntry rel]
    (es : List RankedEntry) (hidx : es.Pairwise fun a b => a.1 < b.1) :
    (es.insertionSort rel).Pairwise fun a b => rel a b ∧ a.1 ≠ b.1 := by
  have hs : (es.insertionSort rel).Pairwise rel :=
    List.sorted_insertionSort rel es
  have h1 : (es.map Prod.fst).Nodup :=
    List.Pairwise.map Prod.fst (fun a b h => Nat.ne_of_lt h) hidx
  have h2 : List.Perm ((es.insertionSort rel).map Prod.fst) (es.map Prod.fst) :=
    (List.perm_insertionSort rel es).map Prod.fst
  have hnd : ((es.insertionSort rel).map Prod.fst).Nodup := h2.symm.nodup h1
  have hne : (es.insertionSort rel).Pairwise fun a b => a.1 ≠ b.1 :=
    List.pairwise_map.mp hnd
  exact hs.and hne

/-- A ranked mover list is pairwise `R`-related once `R` holds between sorted
coercible entries, between `NaN` padding rows in index order, and from any
coercible entry to any padding row. -/
theorem rankMovers_pairwise {rel : RankedEntry → RankedEntry → Prop}
    [DecidableRel rel] [IsTotal RankedEntry rel] [IsTrans RankedEntry rel]
    {df : DataFrame} {symIdx pctIdx n : ℕ} {R : Mover → Mover → Prop}
    (hsome : ∀ a b : RankedEntry, rel a b → a.1 ≠ b.1 →
      R (a.1, a.2.1, some a.2.2) (b.1, b.2.1, some b.2.2))
    (hnan : ∀ a b : ℕ × Cell, a.1 < b.1 → R (a.1, a.2, none) (b.1, b.2, none))
    (hcross : ∀ (a : RankedEntry) (b : ℕ × Cell),
      R (a.1, a.2.1, some a.2.2) (b.1, b.2, none)) :
    (rankMovers rel df symIdx pctIdx n).Pairwise R := by
  unfold rankMovers
  apply List.Pairwise.sublist (List.take_sublist n _)
  rw [List.pairwise_append]
  refine ⟨?_, ?_, ?_⟩
  · rw [List.pairwise_map]
    exact (insertionSort_pairwise_strict rel _
      (moverEntries_fst_pairwise df symIdx pctIdx)).imp
      (fun hab => hsome _ _ hab.1 hab.2)
  · rw [List.pairwise_map]
    exact (nanEntries_fst_pairwise df symIdx pctIdx).imp
      (fun hlt => hnan _ _ hlt)
  · intro x hx y hy
    obtain ⟨a, _, rfl⟩ := List.mem_map.mp hx
    obtain ⟨b, _, rfl⟩ := List.mem_map.mp hy
    exact hcross a b

unseal Rat.add Rat.mul Rat.inv Rat.sub Rat.ofScientific in
/-- C5 counterexample: the claim as stated is false — the decliners of a
successful run need not carry a non-decreasing sequence of numeric change
values: the mixed dataset at `n = 2` returns decliners `[5.20, NaN]`, whose
second value is undefined, so the adjacent pair admits no numeric ordering. -/
theorem spec_C5_cex :
    ¬ ∀ (df : DataFrame) (sc cc : String) (n : ℕ) (g d : List Mover),
      get_top_movers df sc cc n = Except.ok (g, d) →
      d.Pairwise (fun a b => ∃ qa qb : ℚ,
        a.2.2 = some qa ∧ b.2.2 = some qb ∧ qa ≤ qb) := by
  intro h
  have hrun : get_top_movers mixedDF "Symbol" "Change" 2 =
      Except.ok
        ([(0, Cell.str "AAA", some (5.20 : ℚ)), (1, Cell.str "BBB", none)],
         [(0, Cell.str "AAA", some (5.20 : ℚ)), (1, Cell.str "BBB", none)]) := by
    decide
  have h2 := h mixedDF "Symbol" "Change" 2 _ _ hrun
  rw [List.pairwise_cons] at h2
  obtain ⟨qa, qb, _, hqb, _⟩ := h2.1 _ (List.mem_cons_self _ _)
  cases hqb

/-- C5 (amended).  In every successful run: among the entries carrying
numeric change values, the gainers are non-increasing and the decliners
non-decreasing along the sequence, ties among equal values in original row
order; entries with an undefined (`NaN`) change value only trail the numeric
ones — they are the padding — and are themselves in original row order. -/
theorem spec_C5 (df : DataFrame) (sc cc : String) (n : ℕ) (g d : List Mover)
    (h : get_top_movers df sc cc n = Except.ok (g, d)) :
    g.Pairwise (fun a b =>
      (∀ qa ∈ a.2.2, ∀ qb ∈ b.2.2, qb < qa ∨ (qa = qb ∧ a.1 < b.1)) ∧
      (a.2.2 = none → b.2.2 = none ∧ a.1 < b.1)) ∧
    d.Pairwise (fun a b =>
      (∀ qa ∈ a.2.2, ∀ qb ∈ b.2.2, qa < qb ∨ (qa = qb ∧ a.1 < b.1)) ∧
      (a.2.2 = none → b.2.2 = none ∧ a.1 < b.1)) := by
  obtain ⟨pctIdx, symIdx, hp, hs, hg, hd⟩ := get_top_movers_ok h
  subst hg hd
  constructor
  · apply rankMovers_pairwise
    · intro a b hab hne
      constructor
      · intro qa hqa qb hqb
        rw [Option.mem_def] at hqa hqb
        injection hqa with h1
        injection hqb with h2
        have h3 : b.2.2 < a.2.2 ∨ (a.2.2 = b.2.2 ∧ a.1 ≤ b.1) := hab
        rcases h3 with hlt | ⟨heq, hle⟩
        · exact Or.inl (by rw [← h1, ← h2]; exact hlt)
        · exact Or.inr ⟨by rw [← h1, ← h2]; exact heq,
            lt_of_le_of_ne hle hne⟩
      · intro hnone
        cases hnone
    · intro a b hlt
      constructor
      · intro qa hqa
        exact Option.noConfusion (Option.mem_def.mp hqa)
      · intro _
        exact ⟨rfl, hlt⟩
    · intro a b
      constructor
      · intro qa hqa qb hqb
        exact Option.noConfusion (Option.mem_def.mp hqb)
      · intro hnone
        cases hnone
  · apply rankMovers_pairwise
    · intro a b hab hne
      constructor
      · intro qa hqa qb hqb
        rw [Option.mem_def] at hqa hqb
        injection hqa with h1
        injection hqb with h2
        have h3 : a.2.2 < b.2.2 ∨ (a.2.2 = b.2.2 ∧ a.1 ≤ b.1) := hab
        rcases h3 with hlt | ⟨heq, hle⟩
        · exact Or.inl (by rw [← h1, ← h2]; exact hlt)
        · exact Or.inr ⟨by rw [← h1, ← h2]; exact heq,
            lt_of_le_of_ne hle hne⟩
      · intro hnone
        cases hnone
    · intro a b hlt
      constructor
      · intro qa hqa
        exact Option.noConfusion (Option.mem_def.mp hqa)
      · intro _
        exact ⟨rfl, hlt⟩
    · intro a b
      constructor
      · intro qa hqa qb hqb
        exact Option.noConfusion (Option.mem_def.mp hqb)
      · intro hnone
        cases hnone

unseal Rat.add Rat.mul Rat.inv Rat.sub Rat.ofScientific in
/-- C5 witness: the ordering properties at the scenario run. -/
theorem spec_C5_witness :
    ([(0, Cell.str "ABC", some (5.20 : ℚ)), (2, Cell.str "QRS", some (0.00 : ℚ))] :
        List Mover).Pairwise (fun a b =>
        (∀ qa ∈ a.2.2, ∀ qb ∈ b.2.2, qb < qa ∨ (qa = qb ∧ a.1 < b.1)) ∧
        (a.2.2 = none → b.2.2 = none ∧ a.1 < b.1)) ∧
    ([(1, Cell.str "XYZ", some (-3.10 : ℚ)), (2, Cell.str "QRS", some (0.00 : ℚ))] :
        List Mover).Pairwise (fun a b =>
        (∀ qa ∈ a.2.2, ∀ qb ∈ b.2.2, qa < qb ∨ (qa = qb ∧ a.1 < b.1)) ∧
        (a.2.2 = none → b.2.2 = none ∧ a.1 < b.1)) :=
  spec_C5 scenarioDF "Symbol" "Change" 2 _ _ (by decide)

/-- With no duplicate labels, each label resolves to its own position. -/
theorem colIdxAux_getElem {l : List ColName} (hnd : l.Nodup) (j : ℕ)
    (hj : j < l.length) : colIdxAux l[j] l = some j := by
  induction l generalizing j with
  | nil => exact absurd hj (Nat.not_lt_zero j)
  | cons x xs ih =>
    cases j with
    | zero => simp [colIdxAux]
    | succ j' =>
      have hj' : j' < xs.length := by simpa using hj
      have hx : x ≠ xs[j'] := by
        intro he
        exact (List.nodup_cons.mp hnd).1 (he ▸ List.getElem_mem hj')
      rw [List.getElem_cons_succ, colIdxAux, if_neg hx,
        ih (List.nodup_cons.mp hnd).2 j' hj']
      rfl

/-- Re-indexing a row onto its own duplicate-free schema is the identity. -/
theorem reindexRow_self {cols : List ColName} {r : List Cell}
    (hnd : cols.Nodup) (hlen : r.length = cols.length) :
    reindexRow cols cols r = r := by
  unfold reindexRow
  apply List.ext_getElem
  · simp [hlen]
  · intro j h1 h2
    rw [List.getElem_map, colIdxAux_getElem hnd j (by simpa using h1)]
    show getCell r j = r[j]
    rw [getCell, List.getD_eq_getElem?_getD, List.getElem?_eq_getElem h2]
    rfl

/-- The union of two identical schemas is that schema. -/
theorem unionCols_pair_same {A B : DataFrame} (h : B.cols = A.cols) :
    unionCols [A, B] = A.cols := by
  unfold unionCols
  rw [List.foldl_cons, List.foldl_cons, List.foldl_nil, List.nil_append, h]
  have hf1 : A.cols.filter (fun c => decide (c ∉ ([] : List ColName))) = A.cols :=
    List.filter_eq_self.mpr (fun a _ => by simp)
  rw [hf1]
  have hf2 : A.cols.filter
      (fun c => decide (c ∉ A.cols)) = [] :=
    List.filter_eq_nil_iff.mpr (fun a ha => by simp [ha])
  rw [hf2, List.append_nil]

/-- C7.  Combining two looked-up datasets concatenates them: the result has
exactly `len A + len B` rows, and — for the identical, duplicate-free,
aligned schemas the quotes tables share — its rows are exactly `A`'s rows
followed by `B`'s rows, each source in its original order. -/
theorem spec_C7 (ts : List (String × DataFrame)) (kA kB : String)
    (A B : DataFrame) (hA : lookupTable ts kA = some A)
    (hB : lookupTable ts kB = some B) :
    ∃ C, combine_tables ts [kA, kB] = Except.ok C ∧
      C.rows.length = A.rows.length + B.rows.length ∧
      (B.cols = A.cols → A.cols.Nodup →
        (∀ r ∈ A.rows, r.length = A.cols.length) →
        (∀ r ∈ B.rows, r.length = B.cols.length) →
        C.rows = A.rows ++ B.rows) := by
  have hla : lookupAll ts [kA, kB] = Except.ok [A, B] := by
    unfold lookupAll
    rw [hA]
    unfold lookupAll
    rw [hB]
    rfl
  have hcomb : combine_tables ts [kA, kB] = Except.ok (concatDFs [A, B]) := by
    unfold combine_tables
    rw [hla]
    rfl
  refine ⟨concatDFs [A, B], hcomb, ?_, ?_⟩
  · show ((([A, B].map fun df =>
        df.rows.map (reindexRow df.cols (unionCols [A, B]))).flatten).length) = _
    simp
  · intro hcols hnd haA haB
    have hu : unionCols [A, B] = A.cols := unionCols_pair_same hcols
    show (([A, B].map fun df =>
        df.rows.map (reindexRow df.cols (unionCols [A, B]))).flatten) = _
    rw [List.map_cons, List.map_cons, List.map_nil, List.flatten_cons,
      List.flatten_cons, List.flatten_nil, List.append_nil, hu, hcols]
    have e1 : ∀ (rs : List (List Cell)), (∀ r ∈ rs, r.length = A.cols.length) →
        rs.map (reindexRow A.cols A.cols) = rs := by
      intro rs hrs
      have hpt : ∀ r ∈ rs, reindexRow A.cols A.cols r = id r :=
        fun r hr => reindexRow_self hnd (hrs r hr)
      rw [List.map_congr_left hpt, List.map_id]
    rw [e1 A.rows haA,
      e1 B.rows (fun r hr => (haB r hr).trans (congrArg List.length hcols))]

/-- The quotes-table schema shared by the combination witnesses. -/
def quoteCols : List ColName := [ColName.str "Symbol", ColName.str "Change"]

/-- A second small quotes dataset over the same schema. -/
def otherDF : DataFrame :=
  { cols := quoteCols,
    rows := [[Cell.str "PQR", Cell.str "+1.00%"]] }

/-- The scenario dataset re-expressed over the shared schema name. -/
def scenarioDF' : DataFrame :=
  { cols := quoteCols, rows := scenarioDF.rows }

/-- C7 witness: combining two concrete quote tables. -/
theorem spec_C7_witness :
    ∃ C, combine_tables
        [("Table 3", scenarioDF'), ("Table 5", otherDF)]
        ["Table 3", "Table 5"] = Except.ok C ∧
      C.rows.length = scenarioDF'.rows.length + otherDF.rows.length ∧
      (otherDF.cols = scenarioDF'.cols → scenarioDF'.cols.Nodup →
        (∀ r ∈ scenarioDF'.rows, r.length = scenarioDF'.cols.length) →
        (∀ r ∈ otherDF.rows, r.length = otherDF.cols.length) →
        C.rows = scenarioDF'.rows ++ otherDF.rows) :=
  spec_C7 [("Table 3", scenarioDF'), ("Table 5", otherDF)]
    "Table 3" "Table 5" scenarioDF' otherDF rfl rfl

/-- Rows enumerated from any start index produce equal ranked entries when
their symbol cells agree and their coerced change values agree pairwise. -/
theorem filterKey_congr (F G : Cell → Option ℚ) (symIdx pctIdx : ℕ)
    (k : ℕ) (rs rs' : List (List Cell))
    (h : List.Forall₂ (fun r r' => getCell r symIdx = getCell r' symIdx ∧
      F (getCell r pctIdx) = G (getCell r' pctIdx)) rs rs') :
    (rs.enumFrom k).filterMap (fun p =>
        (F (getCell p.2 pctIdx)).map fun v => (p.1, getCell p.2 symIdx, v)) =
    (rs'.enumFrom k).filterMap (fun p =>
        (G (getCell p.2 pctIdx)).map fun v => (p.1, getCell p.2 symIdx, v)) := by
  induction h generalizing k with
  | nil => rfl
  | cons hrr htail ih =>
    rw [List.enumFrom_cons, List.enumFrom_cons, List.filterMap_cons,
      List.filterMap_cons]
    rw [hrr.1, hrr.2, ih (k + 1)]

/-- Equal column structure and pairwise-agreeing rows give equal entries. -/
theorem moverEntries_congr (cols : List ColName)
    (rows rows' : List (List Cell)) (symIdx pctIdx : ℕ)
    (h : List.Forall₂ (fun r r' =>
      getCell r symIdx = getCell r' symIdx ∧
      changeCoercion ⟨cols, rows⟩ pctIdx (getCell r pctIdx) =
        changeCoercion ⟨cols, rows'⟩ pctIdx (getCell r' pctIdx)) rows rows') :
    moverEntries ⟨cols, rows⟩ symIdx pctIdx =
      moverEntries ⟨cols, rows'⟩ symIdx pctIdx := by
  unfold moverEntries
  exact filterKey_congr (changeCoercion ⟨cols, rows⟩ pctIdx)
    (changeCoercion ⟨cols, rows'⟩ pctIdx) symIdx pctIdx 0 rows rows' h

/-- The `NaN` padding rows of equally-enumerated frames also agree when the
coerced change values and symbol cells agree pairwise. -/
theorem filterNan_congr (F G : Cell → Option ℚ) (symIdx pctIdx : ℕ)
    (k : ℕ) (rs rs' : List (List Cell))
    (h : List.Forall₂ (fun r r' => getCell r symIdx = getCell r' symIdx ∧
      F (getCell r pctIdx) = G (getCell r' pctIdx)) rs rs') :
    (rs.enumFrom k).filterMap (fun p =>
        match F (getCell p.2 pctIdx) with
        | some _ => none
        | none => some (p.1, getCell p.2 symIdx)) =
    (rs'.enumFrom k).filterMap (fun p =>
        match G (getCell p.2 pctIdx) with
        | some _ => none
        | none => some (p.1, getCell p.2 symIdx)) := by
  induction h generalizing k with
  | nil => rfl
  | cons hrr htail ih =>
    rw [List.enumFrom_cons, List.enumFrom_cons, List.filterMap_cons,
      List.filterMap_cons, hrr.1, hrr.2, ih (k + 1)]

/-- Equal column structure and pairwise-agreeing rows give equal `NaN`
padding. -/
theorem nanEntries_congr (cols : List ColName)
    (rows rows' : List (List Cell)) (symIdx pctIdx : ℕ)
    (h : List.Forall₂ (fun r r' =>
      getCell r symIdx = getCell r' symIdx ∧
      changeCoercion ⟨cols, rows⟩ pctIdx (getCell r pctIdx) =
        changeCoercion ⟨cols, rows'⟩ pctIdx (getCell r' pctIdx)) rows rows') :
    nanEntries ⟨cols, rows⟩ symIdx pctIdx =
      nanEntries ⟨cols, rows'⟩ symIdx pctIdx := by
  unfold nanEntries
  exact filterNan_congr (changeCoercion ⟨cols, rows⟩ pctIdx)
    (changeCoercion ⟨cols, rows'⟩ pctIdx) symIdx pctIdx 0 rows rows' h

/-- C9.  Numeric coercion is representation-independent: two datasets over
the same columns whose rows agree on the symbol cell and on the coerced
change value — e.g. the number `12.5` against the percent string `"12.50%"` —
produce identical rankings. -/
theorem spec_C9 (cols : List ColName) (rows rows' : List (List Cell))
    (sc cc : String) (n pctIdx symIdx : ℕ)
    (hp : colIdx ⟨cols, rows⟩ cc = some pctIdx)
    (hs : colIdx ⟨cols, rows⟩ sc = some symIdx)
    (h : List.Forall₂ (fun r r' =>
      getCell r symIdx = getCell r' symIdx ∧
      changeCoercion ⟨cols, rows⟩ pctIdx (getCell r pctIdx) =
        changeCoercion ⟨cols, rows'⟩ pctIdx (getCell r' pctIdx)) rows rows') :
    get_top_movers ⟨cols, rows⟩ sc cc n =
      get_top_movers ⟨cols, rows'⟩ sc cc n := by
  have hp' : colIdx ⟨cols, rows'⟩ cc = some pctIdx := hp
  have hs' : colIdx ⟨cols, rows'⟩ sc = some symIdx := hs
  rw [get_top_movers_eq hp hs, get_top_movers_eq hp' hs']
  unfold rankMovers
  rw [moverEntries_congr cols rows rows' symIdx pctIdx h,
    nanEntries_congr cols rows rows' symIdx pctIdx h]

/-- Rows carrying the change column as ready-made numbers. -/
def numChangeRows : List (List Cell) :=
  [[Cell.str "AAA", Cell.num (12.5 : ℚ)], [Cell.str "BBB", Cell.num (3 : ℚ)]]

/-- The same rows carrying the change column as percent strings. -/
def strChangeRows : List (List Cell) :=
  [[Cell.str "AAA", Cell.str "12.50%"], [Cell.str "BBB", Cell.str "3"]]

unseal Rat.add Rat.mul Rat.inv Rat.sub Rat.ofScientific in
/-- C9 witness: the number `12.5` and the percent string `"12.50%"` rank
identically. -/
theorem spec_C9_witness :
    get_top_movers ⟨quoteCols, numChangeRows⟩ "Symbol" "Change" 1 =
      get_top_movers ⟨quoteCols, strChangeRows⟩ "Symbol" "Change" 1 :=
  spec_C9 quoteCols numChangeRows strChangeRows "Symbol" "Change" 1 1 0
    rfl rfl
    (List.Forall₂.cons ⟨rfl, by decide⟩
      (List.Forall₂.cons ⟨rfl, by decide⟩ List.Forall₂.nil))

end JSE
